import Mathlib

/-!
Verification of the readwise sync scripts (`readwise.py` / `readwise_sync.py`).

The two scripts share the same core: `clean_title`, `create_article_json`,
`merge_articles`, the watermark / article-list loaders, and the
`export_articles` orchestration.  This file gives a shallow embedding of
that core and proves the specified properties about it.

Modelling conventions:
- Python JSON values are the inductive `JValue`; `dict.get`, `str.lower`,
  iteration and item access are modelled as `Except`-valued operations that
  return the Python exception kind where CPython would raise.
- Dates at day granularity are integers (a day number standing for a
  `YYYY-MM-DD` date); `datetime.now()` on day `t` is day `t` plus a
  time-of-day fraction in `[0, 1)`, so Python's
  `(now - last_update).days` equals `t - d` exactly when `last_update`
  is midnight of day `d`.
- `str.lower` and the regex class `\s` are modelled on ASCII, which is
  exact for the category strings and whitespace the scripts handle.
-/

namespace Readwise

/-- Python exception kinds the embedded operations can raise. -/
inductive PyErr where
  | attributeError
  | typeError
  | keyError
  | valueError
deriving DecidableEq, Repr

/-- JSON values as produced by `json.loads` / `response.json()`. -/
inductive JValue where
  | null
  | bool (b : Bool)
  | num (n : Int)
  | str (s : String)
  | arr (xs : List JValue)
  | obj (fields : List (String × JValue))
deriving Repr

/-- ASCII lowercase of one character, modelling `str.lower`. -/
def charLowerAscii (c : Char) : Char :=
  if 'A' ≤ c ∧ c ≤ 'Z' then Char.ofNat (c.toNat + 32) else c

/-- ASCII lowercase of a string, modelling `str.lower`. -/
def strLower (s : String) : String :=
  ⟨s.data.map charLowerAscii⟩

/-- Python `\s` on ASCII: space, tab, newline, carriage return,
vertical tab, form feed. -/
def isPySpace (c : Char) : Bool :=
  c == ' ' || c == '\t' || c == '\n' || c == '\r' || c == '\x0b' || c == '\x0c'

/-- One pass of `re.sub(r'\s+', ' ', ·)`: each maximal whitespace run
becomes a single space.  The flag records whether the previous character
was part of a whitespace run. -/
def collapseWSAux : Bool → List Char → List Char
  | _, [] => []
  | prevSpace, c :: cs =>
    if isPySpace c then
      if prevSpace then collapseWSAux true cs
      else ' ' :: collapseWSAux true cs
    else c :: collapseWSAux false cs

/-- Python `str.strip()` restricted to the whitespace class above. -/
def stripChars (l : List Char) : List Char :=
  ((l.dropWhile isPySpace).reverse.dropWhile isPySpace).reverse

/-- `clean_title`: `re.sub(r'\s+', ' ', title.replace('\n', ' ')).strip()`. -/
def clean_title (s : String) : String :=
  ⟨stripChars (collapseWSAux false (s.data.map fun c => if c == '\n' then ' ' else c))⟩

/-- An article record at the data-model level: the persisted article list
is a JSON array of `{title, url}` objects with string fields. -/
structure Article where
  title : String
  url : String
deriving DecidableEq, Repr

/-- The `(title, url)` tuple the merge uses for duplicate detection. -/
def articleKey (a : Article) : String × String := (a.title, a.url)

/-- The loop body of `merge_articles`: walk the incoming articles, appending
each one whose `(title, url)` tuple is not in the `seen` set and adding its
tuple to the set. -/
def mergeAux (seen : List (String × String)) : List Article → List Article
  | [] => []
  | a :: rest =>
    if articleKey a ∈ seen then mergeAux seen rest
    else a :: mergeAux (articleKey a :: seen) rest

/-- `merge_articles(existing, new)`: seed the seen-set with the tuples of the
existing articles, then append the incoming articles that are not yet seen.
The function returns the (mutated) existing list, i.e. the existing articles
followed by the retained incoming ones. -/
def merge_articles (existing newArticles : List Article) : List Article :=
  existing ++ mergeAux (existing.map articleKey) newArticles

/-- The dedup property of an article list: no two entries share the same
`(title, url)` pair. -/
abbrev NoDupPairs (l : List Article) : Prop := (l.map articleKey).Nodup

theorem mergeAux_sublist (seen : List (String × String)) (l : List Article) :
    (mergeAux seen l).Sublist l := by
  induction l generalizing seen with
  | nil => simp [mergeAux]
  | cons a rest ih =>
    simp only [mergeAux]
    split
    · exact (ih seen).cons a
    · exact (ih (articleKey a :: seen)).cons₂ a

theorem mergeAux_nodup_and_unseen (seen : List (String × String))
    (l : List Article) :
    ((mergeAux seen l).map articleKey).Nodup ∧
      ∀ b ∈ mergeAux seen l, articleKey b ∉ seen := by
  induction l generalizing seen with
  | nil => simp [mergeAux]
  | cons a rest ih =>
    simp only [mergeAux]
    split
    · exact ih seen
    · rename_i hnot
      obtain ⟨hnd, hmem⟩ := ih (articleKey a :: seen)
      refine ⟨?_, ?_⟩
      · simp only [List.map_cons, List.nodup_cons]
        refine ⟨?_, hnd⟩
        intro hk
        obtain ⟨b, hb, hkb⟩ := List.mem_map.mp hk
        exact hmem b hb (hkb ▸ List.mem_cons_self _ _)
      · intro b hb
        rcases List.mem_cons.mp hb with h | h
        · exact h ▸ hnot
        · exact fun hs => hmem b h (List.mem_cons_of_mem _ hs)

theorem mergeAux_all_seen (seen : List (String × String)) (l : List Article)
    (h : ∀ a ∈ l, articleKey a ∈ seen) : mergeAux seen l = [] := by
  induction l with
  | nil => simp [mergeAux]
  | cons a rest ih =>
    simp only [mergeAux]
    rw [if_pos (h a (List.mem_cons_self a rest))]
    exact ih fun b hb => h b (List.mem_cons_of_mem a hb)

/-- C1 (claim as stated is false): `merge_articles` does not deduplicate an
existing list that already contains two identical `(title, url)` entries —
merging `[{t,u}, {t,u}]` with an empty incoming list returns the duplicate
pair untouched. -/
theorem merge_dedup_counterexample :
    ¬ NoDupPairs (merge_articles [⟨"t", "u"⟩, ⟨"t", "u"⟩] []) := by
  decide

/-- C1 (amended): if the existing article list contains no two entries with
an identical `(title, url)` pair, then for every incoming list the output of
`merge_articles` contains no two entries with an identical `(title, url)`
pair.  (The merge preserves the dedup invariant; it does not establish it
on an already-duplicated existing list.) -/
theorem merge_preserves_dedup (existing incoming : List Article)
    (h : NoDupPairs existing) :
    NoDupPairs (merge_articles existing incoming) := by
  unfold merge_articles
  show ((existing ++ mergeAux (existing.map articleKey) incoming).map articleKey).Nodup
  rw [List.map_append, List.nodup_append]
  obtain ⟨hnd, hmem⟩ := mergeAux_nodup_and_unseen (existing.map articleKey) incoming
  refine ⟨h, hnd, ?_⟩
  intro k hk1 hk2
  obtain ⟨b, hb, rfl⟩ := List.mem_map.mp hk2
  exact hmem b hb hk1

/-- Witness for C1 (amended) at a concrete input. -/
theorem merge_preserves_dedup_witness :
    NoDupPairs (merge_articles [⟨"a", "u"⟩] [⟨"a", "u"⟩, ⟨"b", "v"⟩]) :=
  merge_preserves_dedup [⟨"a", "u"⟩] [⟨"a", "u"⟩, ⟨"b", "v"⟩] (by decide)

/-- C3: `merge_articles` keeps every existing entry, in the original order,
as a prefix of the result; the appended entries follow all existing ones and
form a sublist of the incoming list, i.e. they appear in fetch order. -/
theorem merge_order_preservation (existing incoming : List Article) :
    ∃ appended : List Article,
      merge_articles existing incoming = existing ++ appended ∧
        appended.Sublist incoming :=
  ⟨mergeAux (existing.map articleKey) incoming, rfl, mergeAux_sublist _ _⟩

/-- C8: merging an article list with any list of articles that all already
occur in it returns the original list unchanged. -/
theorem merge_idempotent_on_subset (L S : List Article)
    (h : ∀ a ∈ S, a ∈ L) : merge_articles L S = L := by
  unfold merge_articles
  have hseen : ∀ a ∈ S, articleKey a ∈ L.map articleKey := fun a ha =>
    List.mem_map_of_mem articleKey (h a ha)
  rw [mergeAux_all_seen (L.map articleKey) S hseen, List.append_nil]

/-- Witness for C8 at a concrete input. -/
theorem merge_idempotent_on_subset_witness :
    merge_articles [⟨"a", "u"⟩, ⟨"b", "v"⟩] [⟨"b", "v"⟩] =
      [⟨"a", "u"⟩, ⟨"b", "v"⟩] :=
  merge_idempotent_on_subset [⟨"a", "u"⟩, ⟨"b", "v"⟩] [⟨"b", "v"⟩] (by decide)

/-- `dict.get(key, default)`; a value that is not a dict has no `.get`
attribute, so CPython raises `AttributeError`. -/
def objGet : JValue → String → JValue → Except PyErr JValue
  | .obj fs, key, dflt => .ok ((fs.lookup key).getD dflt)
  | _, _, _ => .error .attributeError

/-- `.lower()`; only strings have it, so other values raise
`AttributeError`. -/
def pyLower : JValue → Except PyErr String
  | .str s => .ok (strLower s)
  | _ => .error .attributeError

/-- `clean_title` applied to a fetched title value: `title.replace` raises
`AttributeError` when the value is not a string. -/
def cleanTitleJ : JValue → Except PyErr String
  | .str s => .ok (clean_title s)
  | _ => .error .attributeError

/-- `for x in v`: a list yields its elements, a dict its keys, a string its
characters; other JSON values are not iterable and raise `TypeError`. -/
def pyIter : JValue → Except PyErr (List JValue)
  | .arr xs => .ok xs
  | .obj fs => .ok (fs.map fun kv => .str kv.1)
  | .str s => .ok (s.data.map fun c => .str ⟨[c]⟩)
  | _ => .error .typeError

/-- An article as built by `create_article_json`: the title is a cleaned
string; the url is whatever JSON value the `source_url` field held (the
code stores it without inspecting it). -/
structure RawArticle where
  title : String
  url : JValue
deriving Repr

/-- The loop body of `create_article_json` over the `results` list:
`category` is fetched (default `''`) and lowered, records matching
`'articles'` contribute a `{title, url}` record (title cleaned, default
`'Untitled'`; url default `''`), others are skipped.  Each step that can
raise propagates the exception. -/
def createArticleLoop : List JValue → Except PyErr (List RawArticle)
  | [] => .ok []
  | a :: rest =>
    match objGet a "category" (.str "") with
    | .error e => .error e
    | .ok cat =>
      match pyLower cat with
      | .error e => .error e
      | .ok catL =>
        if catL = "articles" then
          match objGet a "title" (.str "Untitled") with
          | .error e => .error e
          | .ok t =>
            match cleanTitleJ t with
            | .error e => .error e
            | .ok title =>
              match objGet a "source_url" (.str "") with
              | .error e => .error e
              | .ok url =>
                match createArticleLoop rest with
                | .error e => .error e
                | .ok tail => .ok (⟨title, url⟩ :: tail)
        else createArticleLoop rest

/-- `create_article_json(highlights_data)`: iterate over
`highlights_data.get('results', [])` and build the article records. -/
def create_article_json (highlightsData : JValue) :
    Except PyErr (List RawArticle) :=
  match objGet highlightsData "results" (.arr []) with
  | .error e => .error e
  | .ok res =>
    match pyIter res with
    | .error e => .error e
    | .ok items => createArticleLoop items

/-- Whether a field of a JSON object, if present, is a JSON string. -/
def strOrAbsent (fs : List (String × JValue)) (k : String) : Bool :=
  match fs.lookup k with
  | none => true
  | some (.str _) => true
  | some _ => false

/-- A fetched record on which the transform cannot raise: a JSON object
whose `category` and `title` fields, when present, are strings.  The
`source_url` value is never method-called by the code, so it may be any
JSON value. -/
def recordOk : JValue → Bool
  | .obj fs => strOrAbsent fs "category" && strOrAbsent fs "title"
  | _ => false

/-- Modelled from the spec's words (§4.2 Transform), for comparison with
`create_article_json`: keep records whose category equals `"articles"`
case-insensitively; the title (default `"Untitled"` when absent) is
whitespace-normalized; the url defaults to `""` when absent. -/
def specTransformRecord (r : JValue) : Option RawArticle :=
  match r with
  | .obj fs =>
    let cat := match fs.lookup "category" with
      | some (.str s) => s
      | _ => ""
    if strLower cat = "articles" then
      let t := match fs.lookup "title" with
        | some (.str s) => s
        | _ => "Untitled"
      some ⟨clean_title t, (fs.lookup "source_url").getD (.str "")⟩
    else none
  | _ => none

theorem createArticleLoop_spec (records : List JValue)
    (hok : records.all recordOk = true) :
    createArticleLoop records = .ok (records.filterMap specTransformRecord) := by
  induction records with
  | nil => rfl
  | cons a rest ih =>
    rw [List.all_cons, Bool.and_eq_true] at hok
    obtain ⟨ha, hrest⟩ := hok
    have ihr := ih hrest
    cases a with
    | null => simp [recordOk] at ha
    | bool b => simp [recordOk] at ha
    | num n => simp [recordOk] at ha
    | str s => simp [recordOk] at ha
    | arr xs => simp [recordOk] at ha
    | obj fs =>
      simp only [recordOk, Bool.and_eq_true] at ha
      obtain ⟨hcat, htit⟩ := ha
      rcases h1 : fs.lookup "category" with _ | v
      · simp only [createArticleLoop, objGet, h1, Option.getD, pyLower,
          List.filterMap_cons, specTransformRecord, h1]
        have hne : strLower "" ≠ "articles" := by decide
        rw [if_neg hne, if_neg hne]
        exact ihr
      · rw [strOrAbsent, h1] at hcat
        cases v with
        | str s =>
          by_cases hc : strLower s = "articles"
          · rcases h2 : fs.lookup "title" with _ | w
            · simp only [createArticleLoop, objGet, h1, h2, Option.getD,
                pyLower, cleanTitleJ, List.filterMap_cons,
                specTransformRecord, ihr]
              rw [if_pos hc, if_pos hc]
            · rw [strOrAbsent, h2] at htit
              cases w with
              | str t =>
                simp only [createArticleLoop, objGet, h1, h2, Option.getD,
                  pyLower, cleanTitleJ, List.filterMap_cons,
                  specTransformRecord, ihr]
                rw [if_pos hc, if_pos hc]
              | null => simp at htit
              | bool b => simp at htit
              | num n => simp at htit
              | arr xs => simp at htit
              | obj gs => simp at htit
          · simp only [createArticleLoop, objGet, h1, Option.getD, pyLower,
              List.filterMap_cons, specTransformRecord]
            rw [if_neg hc, if_neg hc]
            exact ihr
        | null => simp at hcat
        | bool b => simp at hcat
        | num n => simp at hcat
        | arr xs => simp at hcat
        | obj gs => simp at hcat

/-- A fetch result whose records carry categories
`["articles", "books", "articles"]`. -/
def exampleThreeCats : JValue :=
  .obj [("results", .arr
    [ .obj [("category", .str "articles"), ("title", .str "A"),
        ("source_url", .str "ua")]
    , .obj [("category", .str "books"), ("title", .str "B"),
        ("source_url", .str "ub")]
    , .obj [("category", .str "Articles"), ("title", .str "C"),
        ("source_url", .str "uc")] ])]

/-- C6 (claim as stated is false): `create_article_json` raises
`AttributeError` on a results list containing a record whose `category`
field is malformed (the number `5`): `5 .lower()` has no such attribute. -/
theorem create_article_json_raises_counterexample :
    create_article_json
        (.obj [("results", .arr [.obj [("category", .num 5)]])]) =
      .error .attributeError := rfl

/-- C6 (amended): the transform never raises on a fetch result whose
`results` records are JSON objects whose `category` and `title` fields,
when present, are strings; `source_url` may be absent or any JSON value,
missing fields default, and non-article records are skipped. -/
theorem create_article_json_no_raise (fields : List (String × JValue))
    (records : List JValue)
    (hres : fields.lookup "results" = some (.arr records))
    (hok : records.all recordOk = true) :
    ∃ l, create_article_json (.obj fields) = .ok l := by
  refine ⟨records.filterMap specTransformRecord, ?_⟩
  simp only [create_article_json, objGet, hres, Option.getD, pyIter]
  exact createArticleLoop_spec records hok

/-- Witness for C6 (amended) at a concrete input. -/
theorem create_article_json_no_raise_witness :
    ∃ l, create_article_json
        (.obj [("results", .arr [.obj [("category", .str "tweets")]])]) =
      .ok l :=
  create_article_json_no_raise
    [("results", .arr [.obj [("category", .str "tweets")]])]
    [.obj [("category", .str "tweets")]] rfl rfl

/-- C7: on well-typed records, `create_article_json` keeps exactly the
records whose category equals `"articles"` case-insensitively, in order,
with whitespace-normalized title (default `"Untitled"`) and source url
(default `""`); in particular the example with categories
`["articles", "books", "articles"]` yields exactly the 2 article records
in their original order. -/
theorem create_article_json_filter_spec (fields : List (String × JValue))
    (records : List JValue)
    (hres : fields.lookup "results" = some (.arr records))
    (hok : records.all recordOk = true) :
    create_article_json (.obj fields) =
        .ok (records.filterMap specTransformRecord) ∧
      create_article_json exampleThreeCats =
        .ok [⟨"A", .str "ua"⟩, ⟨"C", .str "uc"⟩] := by
  constructor
  · simp only [create_article_json, objGet, hres, Option.getD, pyIter]
    exact createArticleLoop_spec records hok
  · rfl

/-- Witness for C7 at a concrete input. -/
theorem create_article_json_filter_spec_witness :
    create_article_json (.obj [("results", .arr [])]) =
        .ok (List.filterMap specTransformRecord []) ∧
      create_article_json exampleThreeCats =
        .ok [⟨"A", .str "ua"⟩, ⟨"C", .str "uc"⟩] :=
  create_article_json_filter_spec [("results", .arr [])] [] rfl rfl

/-- A day-granularity date as parsed by `strptime(·, '%Y-%m-%d')`. -/
structure YMD where
  year : Nat
  month : Nat
  day : Nat
deriving DecidableEq, Repr

def isLeapYear (y : Nat) : Bool :=
  (y % 4 == 0 && y % 100 != 0) || y % 400 == 0

def daysInMonth (y m : Nat) : Nat :=
  if m == 2 then (if isLeapYear y then 29 else 28)
  else if m == 4 || m == 6 || m == 9 || m == 11 then 30
  else 31

def allDigits (l : List Char) : Bool :=
  !l.isEmpty && l.all (·.isDigit)

def natOfDigits (l : List Char) : Nat :=
  l.foldl (fun n c => n * 10 + (c.toNat - 48)) 0

/-- Split a character list on `'-'`, keeping empty groups, as
`str.split('-')` does. -/
def splitOnDash : List Char → List (List Char)
  | [] => [[]]
  | c :: cs =>
    let r := splitOnDash cs
    if c == '-' then [] :: r
    else
      match r with
      | [] => [[c]]
      | g :: gs => (c :: g) :: gs

/-- `datetime.strptime(s, '%Y-%m-%d')` modelled shallowly: three
dash-separated digit groups forming a valid calendar date; anything else
raises `ValueError`, modelled as `none`. -/
def parse_ymd (s : String) : Option YMD :=
  match splitOnDash s.data with
  | [ys, ms, ds] =>
    if allDigits ys && allDigits ms && allDigits ds then
      let y := natOfDigits ys
      let m := natOfDigits ms
      let d := natOfDigits ds
      if 1 ≤ m && m ≤ 12 && 1 ≤ d && d ≤ daysInMonth y m then some ⟨y, m, d⟩
      else none
    else none
  | _ => none

/-- The observable states of a stored file as the loaders see it:
`missing` — the file does not exist or the underlying read failed
(`get_file_content` returned `None`); `emptyStr` — the read returned the
empty string, which is falsy in `if content:`; `unparseable` —
`json.loads` raises on the content; `parsed v` — the content parses to
the JSON value `v`.  (In the local-disk variant an empty or unreadable
file surfaces through the same caught-exception path.) -/
inductive StoredContent where
  | missing
  | emptyStr
  | unparseable
  | parsed (v : JValue)

/-- `data['last_update']` followed by `strptime(·, '%Y-%m-%d')` on a
parsed watermark file, with the exception CPython would raise:
subscripting a non-dict raises `TypeError`, a missing key `KeyError`,
`strptime` of a non-string `TypeError`, of a non-matching string
`ValueError`. -/
def watermarkOfJson : JValue → Except PyErr YMD
  | .obj fs =>
    match fs.lookup "last_update" with
    | none => .error .keyError
    | some (.str s) =>
      match parse_ymd s with
      | some d => .ok d
      | none => .error .valueError
    | some _ => .error .typeError
  | _ => .error .typeError

/-- `load_last_update` / `load_last_update_from_github`: any exception in
reading, JSON-parsing, or date conversion is caught and yields `none`. -/
def load_last_update : StoredContent → Option YMD
  | .missing => none
  | .emptyStr => none
  | .unparseable => none
  | .parsed v =>
    match watermarkOfJson v with
    | .ok d => some d
    | .error _ => none

/-- `load_existing_articles` / `load_existing_articles_from_github`:
missing or unparseable content yields `[]`; content that parses as JSON is
returned as-is, with no validation of its shape. -/
def load_existing_articles : StoredContent → JValue
  | .missing => .arr []
  | .emptyStr => .arr []
  | .unparseable => .arr []
  | .parsed v => v

/-- Modelled from the spec's words (§6): a well-formed stored watermark is
a JSON object whose `last_update` field is a `YYYY-MM-DD` date string. -/
def wellFormedWatermark : JValue → Bool
  | .obj fs =>
    match fs.lookup "last_update" with
    | some (.str s) => (parse_ymd s).isSome
    | _ => false
  | _ => false

/-- C9 (claim as stated is false): stored article-list content that is
valid JSON of the wrong shape — here the JSON string
`"not an article list"` — is malformed as an article list, yet
`load_existing_articles` returns the parsed value itself, not the empty
list. -/
theorem load_articles_counterexample :
    load_existing_articles (.parsed (.str "not an article list")) ≠
      .arr [] := by
  simp [load_existing_articles]

/-- C9 (amended): loading persisted state fails soft without raising —
for missing, unreadable-as-empty, or JSON-unparseable content both loaders
degrade (watermark to absent, article list to the empty list); for content
that parses as JSON but is not a well-formed watermark the watermark
loader still returns absent.  (Article-list content that parses as JSON is
returned as-is, without shape validation: only missing or unparseable
content degrades to the empty list.)  Both loaders are total functions:
every internal exception is caught. -/
theorem load_state_fails_soft (v : JValue)
    (hmal : wellFormedWatermark v = false) :
    load_last_update .missing = none ∧
      load_last_update .emptyStr = none ∧
      load_last_update .unparseable = none ∧
      load_last_update (.parsed v) = none ∧
      load_existing_articles .missing = .arr [] ∧
      load_existing_articles .emptyStr = .arr [] ∧
      load_existing_articles .unparseable = .arr [] := by
  refine ⟨rfl, rfl, rfl, ?_, rfl, rfl, rfl⟩
  cases v with
  | obj fs =>
    simp only [load_last_update, watermarkOfJson]
    simp only [wellFormedWatermark] at hmal
    rcases h : fs.lookup "last_update" with _ | w
    · rfl
    · rw [h] at hmal
      cases w with
      | str s =>
        rcases hp : parse_ymd s with _ | d
        · simp [hp]
        · simp [hp] at hmal
      | null => rfl
      | bool b => rfl
      | num n => rfl
      | arr xs => rfl
      | obj gs => rfl
  | null => rfl
  | bool b => rfl
  | num n => rfl
  | str s => rfl
  | arr xs => rfl

/-- Witness for C9 (amended) at a concrete input. -/
theorem load_state_fails_soft_witness :
    load_last_update .missing = none ∧
      load_last_update .emptyStr = none ∧
      load_last_update .unparseable = none ∧
      load_last_update (.parsed (.obj [("last_update", .str "not-a-date")]))
        = none ∧
      load_existing_articles .missing = .arr [] ∧
      load_existing_articles .emptyStr = .arr [] ∧
      load_existing_articles .unparseable = .arr [] :=
  load_state_fails_soft (.obj [("last_update", .str "not-a-date")]) rfl

mutual

/-- Structural equality of JSON values, modelling Python `==` on values
decoded from JSON. -/
def jBEq : JValue → JValue → Bool
  | .null, .null => true
  | .bool a, .bool b => a == b
  | .num a, .num b => a == b
  | .str a, .str b => a == b
  | .arr xs, .arr ys => jBEqList xs ys
  | .obj xs, .obj ys => jBEqObj xs ys
  | _, _ => false

def jBEqList : List JValue → List JValue → Bool
  | [], [] => true
  | x :: xs, y :: ys => jBEq x y && jBEqList xs ys
  | _, _ => false

def jBEqObj : List (String × JValue) → List (String × JValue) → Bool
  | [], [] => true
  | (k, v) :: xs, (l, w) :: ys => k == l && jBEq v w && jBEqObj xs ys
  | _, _ => false

end

/-- Equality of `(title, url)` tuples at the pipeline level, where the url
is a raw JSON value. -/
def rawKeyBEq (a b : String × JValue) : Bool :=
  a.1 == b.1 && jBEq a.2 b.2

/-- The `merge_articles` loop at the pipeline level (same algorithm as
`mergeAux`, over articles whose url is a raw JSON value). -/
def mergeAuxRaw (seen : List (String × JValue)) :
    List RawArticle → List RawArticle
  | [] => []
  | a :: rest =>
    if seen.any (rawKeyBEq (a.title, a.url)) then mergeAuxRaw seen rest
    else a :: mergeAuxRaw ((a.title, a.url) :: seen) rest

/-- `merge_articles` at the pipeline level. -/
def merge_articles_raw (existing newArticles : List RawArticle) :
    List RawArticle :=
  existing ++
    mergeAuxRaw (existing.map fun a => (a.title, a.url)) newArticles

/-- A timestamp serialized into an export-API query: either midnight of a
day-granularity date (an integer day number standing for `YYYY-MM-DD`) or
the `datetime.now()` instant of the current invocation. -/
inductive TS where
  | day (d : Int)
  | now
deriving DecidableEq, Repr

/-- The query parameters one `get_highlights` call sends: the optional
`updated_after` and `updated_before` timestamps. -/
structure FetchParams where
  updatedAfter : Option TS
  updatedBefore : Option TS
deriving DecidableEq, Repr

/-- Parameter construction inside `get_highlights(updated_after,
start_date, end_date)`: `updated_after` wins; otherwise `start_date` sets
the lower bound and `end_date`, when given, also the upper bound. -/
def getHighlightsParams (updatedAfter startDate endDate : Option TS) :
    FetchParams :=
  match updatedAfter with
  | some ua => ⟨some ua, none⟩
  | none =>
    match startDate with
    | some sd => ⟨some sd, endDate⟩
    | none => ⟨none, none⟩

/-- The backing store as `export_articles` observes it: the loaded
watermark (the day number of the stored `YYYY-MM-DD` date, `none` when
absent or malformed) and the stored article list. -/
structure Store where
  watermark : Option Int
  articles : List RawArticle

/-- Everything observable about one `export_articles` invocation: the
`get_highlights` calls made, whether the article list was read from the
backing store, the final store state, whether the invocation raised, and
how many article records the fetch produced after the transform. -/
structure SyncOutcome where
  fetchCalls : List FetchParams
  articlesRead : Bool
  store : Store
  failed : Bool
  newCount : Nat

/-- The common tail of `export_articles` after the fetch: transform the
response (a raising transform aborts), load the existing list, merge,
write the merged list back (`persistOk = false` means that write raises
and aborts), then `save_last_update_to_github` writes today's date as the
new watermark — but only when neither `start_date` nor `all_time` was
given. -/
def runPipeline (params : FetchParams) (startDate : Option Int)
    (allTime : Bool) (today : Int) (store : Store) (apiResponse : JValue)
    (persistOk : Bool) : SyncOutcome :=
  match create_article_json apiResponse with
  | .error _ => ⟨[params], false, store, true, 0⟩
  | .ok newArts =>
    let merged := merge_articles_raw store.articles newArts
    if persistOk then
      if startDate.isNone && !allTime then
        ⟨[params], true, ⟨some today, merged⟩, false, newArts.length⟩
      else
        ⟨[params], true, ⟨store.watermark, merged⟩, false, newArts.length⟩
    else ⟨[params], true, store, true, newArts.length⟩

/-- `export_articles(start_date, end_date, all_time)` of the sync variant:
mode resolution, fetch, transform, merge, persist, conditional watermark
update.  `today` is the current day number, so Python's
`(datetime.now() - last_update).days > 0` is `today - d > 0`; `startDate`
and `endDate` are the pre-parsed day numbers of the CLI arguments;
`apiResponse` is what the export API returns when called; `persistOk`
says whether the article-list write succeeds. -/
def export_articles (startDate endDate : Option Int) (allTime : Bool)
    (today : Int) (store : Store) (apiResponse : JValue)
    (persistOk : Bool) : SyncOutcome :=
  if allTime then
    runPipeline (getHighlightsParams none none none) startDate allTime
      today store apiResponse persistOk
  else
    match startDate with
    | some s =>
      runPipeline
        (getHighlightsParams none (some (.day s))
          (some ((endDate.map TS.day).getD TS.now)))
        startDate allTime today store apiResponse persistOk
    | none =>
      match store.watermark with
      | some d =>
        if today - d > 0 then
          runPipeline (getHighlightsParams (some (.day d)) none none)
            startDate allTime today store apiResponse persistOk
        else ⟨[], false, store, false, 0⟩
      | none =>
        runPipeline (getHighlightsParams none none none) startDate allTime
          today store apiResponse persistOk

/-- C2: in incremental mode (no start date, no all-time flag) with a
stored watermark dated today or later, `export_articles` returns
immediately: no `get_highlights` call, no article-list read, the backing
store untouched, no failure, zero new articles. -/
theorem incremental_short_circuit (endDate : Option Int) (today d : Int)
    (store : Store) (apiResponse : JValue) (persistOk : Bool)
    (hwm : store.watermark = some d) (hle : today ≤ d) :
    export_articles none endDate false today store apiResponse persistOk =
      ⟨[], false, store, false, 0⟩ := by
  have hd : ¬ today - d > 0 := by omega
  simp [export_articles, hwm, hd]

/-- Witness for C2 at a concrete input. -/
theorem incremental_short_circuit_witness :
    export_articles none none false 20000 ⟨some 20000, []⟩ .null true =
      ⟨[], false, ⟨some 20000, []⟩, false, 0⟩ :=
  incremental_short_circuit none 20000 20000 ⟨some 20000, []⟩ .null true
    rfl (by omega)

/-- C4: with `all_time = true` and a start date both supplied, the fetch
is issued with no date-filter parameters (full-history wins) and the
stored watermark is not updated afterward, whether or not the rest of the
run succeeds. -/
theorem all_time_precedence (s : Int) (endDate : Option Int) (today : Int)
    (store : Store) (apiResponse : JValue) (persistOk : Bool) :
    (export_articles (some s) endDate true today store apiResponse
        persistOk).fetchCalls = [⟨none, none⟩] ∧
      (export_articles (some s) endDate true today store apiResponse
        persistOk).store.watermark = store.watermark := by
  constructor <;>
    (cases h : create_article_json apiResponse <;> cases persistOk <;>
      simp [export_articles, runPipeline, getHighlightsParams, h])

/-- C5: when the write of the merged article list fails (the persist step
raises), the watermark is not advanced: after the invocation the store
holds the same watermark value as before, whatever the mode and inputs. -/
theorem persist_failure_preserves_watermark (startDate endDate : Option Int)
    (allTime : Bool) (today : Int) (store : Store) (apiResponse : JValue) :
    (export_articles startDate endDate allTime today store apiResponse
        false).store.watermark = store.watermark := by
  cases allTime with
  | true =>
    cases h : create_article_json apiResponse <;>
      simp [export_articles, runPipeline, getHighlightsParams, h]
  | false =>
    cases startDate with
    | some s =>
      cases h : create_article_json apiResponse <;>
        simp [export_articles, runPipeline, getHighlightsParams, h]
    | none =>
      cases hwm : store.watermark with
      | some d =>
        by_cases hd : today - d > 0
        · cases h : create_article_json apiResponse <;>
            simp [export_articles, runPipeline, getHighlightsParams, h,
              hwm, hd]
        · simp [export_articles, runPipeline, getHighlightsParams, hwm, hd]
      | none =>
        cases h : create_article_json apiResponse <;>
          simp [export_articles, runPipeline, getHighlightsParams, h, hwm]

/-- C10: after any `export_articles` invocation the stored watermark is
either unchanged or equal to today's date: whenever the sync updates the
watermark, the value written is the current date at the moment of saving,
independent of the fetched date window and of the fetched records. -/
theorem watermark_write_is_today (startDate endDate : Option Int)
    (allTime : Bool) (today : Int) (store : Store) (apiResponse : JValue)
    (persistOk : Bool) :
    (export_articles startDate endDate allTime today store apiResponse
        persistOk).store.watermark = store.watermark ∨
      (export_articles startDate endDate allTime today store apiResponse
        persistOk).store.watermark = some today := by
  cases allTime with
  | true =>
    cases h : create_article_json apiResponse <;> cases persistOk <;>
      simp [export_articles, runPipeline, getHighlightsParams, h]
  | false =>
    cases startDate with
    | some s =>
      cases h : create_article_json apiResponse <;> cases persistOk <;>
        simp [export_articles, runPipeline, getHighlightsParams, h]
    | none =>
      cases hwm : store.watermark with
      | some d =>
        by_cases hd : today - d > 0
        · cases h : create_article_json apiResponse <;> cases persistOk <;>
            simp [export_articles, runPipeline, getHighlightsParams, h,
              hwm, hd]
        · simp [export_articles, runPipeline, getHighlightsParams, hwm, hd]
      | none =>
        cases h : create_article_json apiResponse <;> cases persistOk <;>
          simp [export_articles, runPipeline, getHighlightsParams, h, hwm]

end Readwise
